import Mathlib

/-!
Shallow embedding of the LadyBug trading engine (rust-engine) for
specification checking.  Numeric (f64) arithmetic is modelled exactly over
ℚ; division by zero follows the ℚ convention (x / 0 = 0).  Strings that
the Rust code parses into numbers are modelled as the parsed values.
-/

/-- One OHLCV bar, mirroring `alpaca::Bar` (`t, o, h, l, c, v`).
Timestamps are modelled as naturals, prices as rationals. -/
structure Bar where
  t : ℕ
  o : ℚ
  h : ℚ
  l : ℚ
  c : ℚ
  v : ℤ
deriving DecidableEq, Repr

/-- Default bar used to express Rust slice indexing `bars[i]` as `getD`. -/
def dBar : Bar := ⟨0, 0, 0, 0, 0, 0⟩

/-- Rust `f64::clamp(lo, hi)` for `lo ≤ hi`: values below `lo` go to `lo`,
above `hi` go to `hi`. -/
def clampQ (x lo hi : ℚ) : ℚ := min (max x lo) hi

namespace TechnicalAnalysis

/-- The per-step close changes `bars[i].c - bars[i-1].c` for `i` in
`1 .. bars.len()`, as in the loop of `calculate_rsi`. -/
def changes (bars : List Bar) : List ℚ :=
  (List.range' 1 (bars.length - 1)).map
    (fun i => (bars.getD i dBar).c - (bars.getD (i - 1) dBar).c)

/-- `TechnicalAnalysis::calculate_rsi` from `technical.rs`:
returns `none` when fewer than `period + 1` bars; otherwise averages the
trailing `period` gains and losses and returns `100` when the average loss
is zero. -/
def calculate_rsi (bars : List Bar) (period : ℕ) : Option ℚ :=
  if bars.length < period + 1 then none
  else
    let chs := changes bars
    let gains := chs.map (fun ch => if 0 < ch then ch else 0)
    let losses := chs.map (fun ch => if 0 < ch then 0 else -ch)
    let avg_gain := (gains.reverse.take period).sum / (period : ℚ)
    let avg_loss := (losses.reverse.take period).sum / (period : ℚ)
    if avg_loss = 0 then some 100
    else some (100 - 100 / (1 + avg_gain / avg_loss))

/-- `TechnicalAnalysis::calculate_sma`: mean of the last `period` closes,
`none` when fewer than `period` bars. -/
def calculate_sma (bars : List Bar) (period : ℕ) : Option ℚ :=
  if bars.length < period then none
  else some (((bars.reverse.take period).map (fun b => b.c)).sum / (period : ℚ))

/-- `TechnicalAnalysis::generate_signal` from `technical.rs`.  The random
`momentum_boost` term `(rand::random::<f64>() - 0.5) * 0.25` is modelled by
the explicit parameter `noise`. -/
def generate_signal (bars : List Bar) (sentiment : ℚ) (noise : ℚ) : ℚ :=
  if bars.length < 20 then 0
  else
    let rsiTerm : ℚ :=
      match calculate_rsi bars 14 with
      | some rsi => if rsi < 30 then 0.3 else if 70 < rsi then -0.3 else 0
      | none => 0
    let smaTerm : ℚ :=
      match calculate_sma bars 20, calculate_sma bars 50 with
      | some sma20, some sma50 => if sma50 < sma20 then 0.2 else -0.2
      | _, _ => 0
    let momTerm : ℚ :=
      if 10 ≤ bars.length then
        let lastC := (bars.getD (bars.length - 1) dBar).c
        let prevC := (bars.getD (bars.length - 10) dBar).c
        clampQ ((lastC - prevC) / prevC) (-0.3) 0.3
      else 0
    clampQ (rsiTerm + smaTerm + momTerm + sentiment * 0.2 + noise) (-1) 1

end TechnicalAnalysis

namespace TechnicalAnalysis

/-- Sequence a list of optional values; `none` models an out-of-bounds
slice access (a Rust panic) anywhere in the computation. -/
def seqOpt {α : Type} : List (Option α) → Option (List α)
  | [] => some []
  | o :: rest => do
    let x ← o
    let xs ← seqOpt rest
    pure (x :: xs)

/-- Index-checked form of the change loop of `calculate_rsi`: every slice
access `bars[i]`, `bars[i-1]` goes through `List.get?`. -/
def changesIx (bars : List Bar) : Option (List ℚ) :=
  seqOpt ((List.range' 1 (bars.length - 1)).map
    (fun i => do
      let cur ← bars.get? i
      let prev ← bars.get? (i - 1)
      pure (cur.c - prev.c)))

/-- Index-checked `calculate_rsi`: outer `none` means a slice access was
out of bounds (a panic); `some r` means the Rust function returns `r`. -/
def calculate_rsi_ix (bars : List Bar) (period : ℕ) : Option (Option ℚ) :=
  if bars.length < period + 1 then some none
  else do
    let chs ← changesIx bars
    let gains := chs.map (fun ch => if 0 < ch then ch else 0)
    let losses := chs.map (fun ch => if 0 < ch then 0 else -ch)
    let avg_gain := (gains.reverse.take period).sum / (period : ℚ)
    let avg_loss := (losses.reverse.take period).sum / (period : ℚ)
    if avg_loss = 0 then pure (some 100)
    else pure (some (100 - 100 / (1 + avg_gain / avg_loss)))

/-- Index-checked `generate_signal`: `none` means some slice access inside
the pipeline was out of bounds; `some r` means the function returns `r`.
`calculate_sma` performs no indexing (it folds over `rev().take(period)`),
so it is used as is. -/
def generate_signal_ix (bars : List Bar) (sentiment : ℚ) (noise : ℚ) :
    Option ℚ :=
  if bars.length < 20 then some 0
  else do
    let rsiOpt ← calculate_rsi_ix bars 14
    let rsiTerm : ℚ :=
      match rsiOpt with
      | some rsi => if rsi < 30 then 0.3 else if 70 < rsi then -0.3 else 0
      | none => 0
    let smaTerm : ℚ :=
      match calculate_sma bars 20, calculate_sma bars 50 with
      | some sma20, some sma50 => if sma50 < sma20 then 0.2 else -0.2
      | _, _ => 0
    let momTerm : ℚ ←
      if 10 ≤ bars.length then do
        let lastB ← bars.get? (bars.length - 1)
        let prevB ← bars.get? (bars.length - 10)
        pure (clampQ ((lastB.c - prevB.c) / prevB.c) (-0.3) 0.3)
      else pure 0
    pure (clampQ (rsiTerm + smaTerm + momTerm + sentiment * 0.2 + noise) (-1) 1)

end TechnicalAnalysis

/-- A venue position as the engine sees it (`alpaca::Position` with its
numeric string fields already parsed, `unwrap_or(0.0)`-style). -/
structure PositionR where
  symbol : String
  qty : ℚ
  avg_entry_price : ℚ
  current_price : ℚ
  unrealized_pl : ℚ
deriving DecidableEq, Repr

/-- Outcomes of the venue calls a single decision step can make, plus the
account data the buy branch reads.  Each field is the result the external
gateway would return for that call. -/
structure VenueEnv where
  profitCloseOk : Bool
  sellCloseOk : Bool
  orderOk : Bool
  accountOk : Bool
  buying_power : ℚ
deriving DecidableEq, Repr

/-- Observable effects of one decision step, in program order:
venue calls (`closeCall`, `orderCall`, `cryptoOrderCall`), Activity-Ledger
`logger.trade` entries (`tradeLogSuccess` / `tradeLogError`), and
`TradeRecord`s pushed onto `trade_history` (`tradeRec`). -/
inductive Ev where
  | closeCall
  | orderCall (qty : ℤ)
  | cryptoOrderCall (qty : ℚ)
  | tradeLogSuccess
  | tradeLogError
  | tradeRec (action : String) (qty : ℚ) (price : ℚ) (pnl : ℚ)
deriving DecidableEq, Repr

/-- Result of `process_stock` / `process_crypto`: `Ok(string)` or `Err`. -/
inductive StepOut where
  | ok (s : String)
  | err
deriving DecidableEq, Repr

/-- `((current_price - entry) / entry) * 100.0` guarded by `entry > 0.0`,
as computed in `process_stock` and `process_crypto`. -/
def profitPercent (entry current : ℚ) : ℚ :=
  if 0 < entry then (current - entry) / entry * 100 else 0

/-- The decision-and-execution section of `process_stock` (`main.rs`,
after price, bars, signal and positions have been obtained): profit-take
at ≥ 15 %, buy above signal 0.15 sizing `min(bp * 0.05, 5000) / price`
floored to whole shares, sell below −0.15.  Returns the function result
and the emitted effects in order. -/
def process_stock_decide (env : VenueEnv) (symbol : String)
    (current_price signal : ℚ) (positions : List PositionR) :
    StepOut × List Ev :=
  let has_position := positions.any (fun p => p.symbol == symbol)
  let pt : Option (StepOut × List Ev) × List Ev :=
    if has_position then
      match positions.find? (fun p => p.symbol == symbol) with
      | some pos =>
        if 15 ≤ profitPercent pos.avg_entry_price current_price then
          if env.profitCloseOk then
            (some (.ok "profit_taking", [.closeCall, .tradeLogSuccess]), [])
          else (none, [.closeCall])
        else (none, [])
      | none => (none, [])
    else (none, [])
  match pt with
  | (some r, _) => r
  | (none, evs0) =>
    if 0.15 < signal ∧ has_position = false then
      if env.accountOk = false then (.err, evs0)
      else
        let position_size := min (env.buying_power * 0.05) 5000
        let qty : ℤ := ⌊position_size / current_price⌋
        if 0 < qty then
          if env.orderOk then
            (.ok "buy", evs0 ++ [.orderCall qty, .tradeLogSuccess,
                .tradeRec "BUY" (qty : ℚ) current_price 0])
          else (.ok "neutral", evs0 ++ [.orderCall qty, .tradeLogError])
        else (.ok "neutral", evs0)
    else
      if signal < -0.15 ∧ has_position = true then
        match positions.find? (fun p => p.symbol == symbol) with
        | some pos =>
          if env.sellCloseOk then
            (.ok "sell", evs0 ++ [.closeCall, .tradeLogSuccess,
                .tradeRec "SELL" pos.qty current_price pos.unrealized_pl])
          else (.ok "neutral", evs0 ++ [.closeCall, .tradeLogError])
        | none => (.ok "neutral", evs0)
      else (.ok "neutral", evs0)

/-- The decision-and-execution section of `process_crypto` (`main.rs`):
profit-take at ≥ 20 %, buy above signal 0.20 sizing
`min(bp * 0.02, 2000) / price` (fractional quantity), sell below −0.20.
Failed crypto orders and closes log only via `error!`, so they emit no
Activity-Ledger trade entry. -/
def process_crypto_decide (env : VenueEnv) (symbol : String)
    (current_price signal : ℚ) (positions : List PositionR) :
    StepOut × List Ev :=
  let has_position := positions.any (fun p => p.symbol == symbol)
  let pt : Option (StepOut × List Ev) × List Ev :=
    if has_position then
      match positions.find? (fun p => p.symbol == symbol) with
      | some pos =>
        if 20 ≤ profitPercent pos.avg_entry_price current_price then
          if env.profitCloseOk then
            (some (.ok "profit_taking", [.closeCall, .tradeLogSuccess]), [])
          else (none, [.closeCall])
        else (none, [])
      | none => (none, [])
    else (none, [])
  match pt with
  | (some r, _) => r
  | (none, evs0) =>
    if 0.20 < signal ∧ has_position = false then
      if env.accountOk = false then (.err, evs0)
      else
        let position_size := min (env.buying_power * 0.02) 2000
        let qty : ℚ := position_size / current_price
        if 0 < qty then
          if env.orderOk then
            (.ok "buy", evs0 ++ [.cryptoOrderCall qty, .tradeLogSuccess,
                .tradeRec "BUY" qty current_price 0])
          else (.ok "neutral", evs0 ++ [.cryptoOrderCall qty])
        else (.ok "neutral", evs0)
    else
      if signal < -0.20 ∧ has_position = true then
        match positions.find? (fun p => p.symbol == symbol) with
        | some pos =>
          if env.sellCloseOk then
            (.ok "sell", evs0 ++ [.closeCall, .tradeLogSuccess,
                .tradeRec "SELL" pos.qty current_price pos.unrealized_pl])
          else (.ok "neutral", evs0 ++ [.closeCall])
        | none => (.ok "neutral", evs0)
      else (.ok "neutral", evs0)

/-- One Activity-Ledger entry (`activity::ActivityLog`), reduced to the
fields its eviction logic reads: the map key `id` (a fresh UUID in Rust)
and the RFC3339 `timestamp` modelled as a natural number whose order
agrees with the string order. -/
structure ActivityRec where
  id : ℕ
  ts : ℕ
deriving DecidableEq, Repr

namespace ActivityLogger

/-- `ActivityLogger::new` sets `max_logs = 100`. -/
def max_logs : ℕ := 100

/-- `iter().min_by_key(|entry| timestamp)`: the minimal timestamp in the
store, `none` when empty. -/
def minTs? : List ActivityRec → Option ℕ
  | [] => none
  | e :: rest =>
    match minTs? rest with
    | none => some e.ts
    | some m => some (min e.ts m)

/-- Remove the first entry carrying timestamp `m` (the `remove(&key)` of
the entry `min_by_key` returned). -/
def removeFirstTs (m : ℕ) : List ActivityRec → List ActivityRec
  | [] => []
  | e :: rest => if e.ts = m then rest else e :: removeFirstTs m rest

/-- `ActivityLogger::log`: insert the fresh entry, then, if the store now
exceeds `max_logs`, evict one entry with the oldest timestamp. -/
def log (st : List ActivityRec) (e : ActivityRec) : List ActivityRec :=
  let st1 := e :: st
  if max_logs < st1.length then
    match minTs? st1 with
    | some m => removeFirstTs m st1
    | none => st1
  else st1

end ActivityLogger

/-- `PortfolioSnapshot` from `main.rs`, timestamp as a natural. -/
structure PortfolioSnapshot where
  timestamp : ℕ
  total_value : ℚ
  cash : ℚ
  positions_value : ℚ
deriving DecidableEq, Repr

/-- The append step of `portfolio_tracking_loop`: `history.push(snapshot)`
followed by `if history.len() > 100 { history.remove(0); }`. -/
def pushSnapshot (history : List PortfolioSnapshot) (s : PortfolioSnapshot) :
    List PortfolioSnapshot :=
  let h1 := history ++ [s]
  if 100 < h1.length then h1.drop 1 else h1

/-- The market-data a latest-price fetch can observe, covering both
gateways: the equities `trades/latest` request (its HTTP status and the
`trade.p` field), the crypto `latest/quotes` request (HTTP status, `ap`
and `bp` fields), and the close of the latest 1-minute bar used as the
fallback (`none` when no bar is available). -/
structure MarketData where
  tradeHttpOk : Bool
  trade : Option ℚ
  quoteHttpOk : Bool
  ask : Option ℚ
  bid : Option ℚ
  barClose : Option ℚ
deriving DecidableEq, Repr

/-- `AlpacaClient::get_latest_quote` (`alpaca.rs`): on HTTP failure fall
back to the latest bar close; otherwise return the executed-trade price
when present and positive, else fall back to the latest bar close;
`none` models the final `bail!` (no data via any path). -/
def get_latest_quote (d : MarketData) : Option ℚ :=
  if d.tradeHttpOk = false then d.barClose
  else
    match d.trade with
    | some p => if 0 < p then some p else d.barClose
    | none => d.barClose

/-- `CryptoClient::get_latest_crypto_price` (`crypto.rs`): on HTTP failure
`bail!` immediately (no fallback); otherwise prefer the ask quote, then
the bid quote, then the latest bar close; `none` models a `bail!`. -/
def get_latest_crypto_price (d : MarketData) : Option ℚ :=
  if d.quoteHttpOk = false then none
  else
    let tryBid : Option ℚ :=
      match d.bid with
      | some b => if 0 < b then some b else d.barClose
      | none => d.barClose
    match d.ask with
    | some a => if 0 < a then some a else tryBid
    | none => tryBid

/-- Scenario store: N + 5 = 105 entries with strictly increasing
timestamps 1, 2, …, 105 inserted into an empty Activity Ledger. -/
def activityScenario : List ActivityRec :=
  (List.range 105).foldl (fun st i => ActivityLogger.log st ⟨i + 1, i + 1⟩) []

/-- Scenario history: 105 snapshots with timestamps 1, 2, …, 105 appended
to an empty portfolio history. -/
def portfolioScenario : List PortfolioSnapshot :=
  (List.range 105).foldl (fun h i => pushSnapshot h ⟨i + 1, 0, 0, 0⟩) []

/-!  Theorems.  -/

/-- Rust `clamp(lo, hi)` stays above `lo` when `lo ≤ hi`. -/
theorem le_clampQ (x lo hi : ℚ) (h : lo ≤ hi) : lo ≤ clampQ x lo hi :=
  le_min (le_max_right x lo) h

/-- Rust `clamp(lo, hi)` never exceeds `hi`. -/
theorem clampQ_le (x lo hi : ℚ) : clampQ x lo hi ≤ hi :=
  min_le_right _ _

/-- C3: for every bar series shorter than 20 bars and every sentiment and
perturbation value, `generate_signal` returns exactly 0: the early return
fires before any indicator term or perturbation is added. -/
theorem C3_short_series_returns_zero (bars : List Bar) (sentiment noise : ℚ)
    (h : bars.length < 20) :
    TechnicalAnalysis.generate_signal bars sentiment noise = 0 := by
  unfold TechnicalAnalysis.generate_signal
  rw [if_pos h]

/-- Witness for C3 at a concrete short series. -/
theorem C3_short_series_returns_zero_witness :
    TechnicalAnalysis.generate_signal [⟨0, 0, 0, 0, 5, 0⟩] 1 (37/100) = 0 :=
  C3_short_series_returns_zero [⟨0, 0, 0, 0, 5, 0⟩] 1 (37/100) (by decide)

/-- C7: for every bar series, sentiment, and value of the random
perturbation, `generate_signal` lies in the closed interval [-1, 1]. -/
theorem C7_signal_clamped (bars : List Bar) (sentiment noise : ℚ) :
    -1 ≤ TechnicalAnalysis.generate_signal bars sentiment noise ∧
      TechnicalAnalysis.generate_signal bars sentiment noise ≤ 1 := by
  unfold TechnicalAnalysis.generate_signal
  by_cases h : bars.length < 20
  · rw [if_pos h]; norm_num
  · rw [if_neg h]
    exact ⟨le_clampQ _ _ _ (by norm_num), clampQ_le _ _ _⟩

/-- On a strictly increasing close series every per-step change is
positive. -/
theorem changes_pos_of_chain (bars : List Bar)
    (hmono : List.Chain' (fun a b : Bar => a.c < b.c) bars) :
    ∀ ch ∈ TechnicalAnalysis.changes bars, 0 < ch := by
  intro ch hch
  unfold TechnicalAnalysis.changes at hch
  obtain ⟨i, hi, rfl⟩ := List.mem_map.mp hch
  rw [List.mem_range'_1] at hi
  have h2 : i < bars.length := by omega
  have h1 : i - 1 < bars.length := by omega
  have h0 : i - 1 < bars.length - 1 := by omega
  have hstep := List.chain'_iff_get.mp hmono (i - 1) h0
  rw [List.getD_eq_get bars dBar h2, List.getD_eq_get bars dBar h1]
  have hii : i - 1 + 1 = i := by omega
  simp only [hii] at hstep
  exact sub_pos.mpr hstep

/-- C8: for every positive period and every bar series of at least
`period + 1` bars whose closes strictly increase, every per-step loss is 0,
the trailing average loss is exactly 0, and `calculate_rsi` returns
exactly 100. -/
theorem C8_rsi_all_gains_is_100 (bars : List Bar) (period : ℕ)
    (hp : 0 < period) (hlen : period + 1 ≤ bars.length)
    (hmono : List.Chain' (fun a b : Bar => a.c < b.c) bars) :
    TechnicalAnalysis.calculate_rsi bars period = some 100 := by
  have hlt : ¬ bars.length < period + 1 := by omega
  unfold TechnicalAnalysis.calculate_rsi
  rw [if_neg hlt]
  have hsum :
      ((((TechnicalAnalysis.changes bars).map
          (fun ch => if 0 < ch then (0 : ℚ) else -ch)).reverse.take
            period).sum : ℚ) = 0 := by
    apply List.sum_eq_zero
    intro x hx
    have hx1 : x ∈ ((TechnicalAnalysis.changes bars).map
        (fun ch => if 0 < ch then (0 : ℚ) else -ch)).reverse :=
      List.mem_of_mem_take hx
    rw [List.mem_reverse] at hx1
    obtain ⟨ch, hch, rfl⟩ := List.mem_map.mp hx1
    rw [if_pos (changes_pos_of_chain bars hmono ch hch)]
  simp [hsum]

/-- Witness for C8: fifteen strictly rising closes, period 14. -/
theorem C8_rsi_all_gains_is_100_witness :
    TechnicalAnalysis.calculate_rsi
      ([1, 2, 3, 4, 5, 6, 7, 8, 9, 10, 11, 12, 13, 14, 15].map
        (fun c : ℚ => ⟨0, 0, 0, 0, c, 0⟩)) 14 = some 100 :=
  C8_rsi_all_gains_is_100 _ 14 (by decide) (by decide)
    (by rw [List.chain'_iff_get]; decide)

/-- Sequencing a list of calls that all succeed yields the list of their
results. -/
theorem seqOpt_map_some {α β : Type} (f : α → Option β) (g : α → β)
    (l : List α) (h : ∀ a ∈ l, f a = some (g a)) :
    TechnicalAnalysis.seqOpt (l.map f) = some (l.map g) := by
  induction l with
  | nil => rfl
  | cons a as ih =>
    simp only [List.map_cons, TechnicalAnalysis.seqOpt]
    rw [h a (List.mem_cons_self a as),
      ih (fun b hb => h b (List.mem_cons_of_mem a hb))]
    rfl

/-- Every index the RSI change loop reads is in bounds: the checked loop
never fails and agrees with the unchecked translation. -/
theorem changesIx_eq (bars : List Bar) :
    TechnicalAnalysis.changesIx bars =
      some (TechnicalAnalysis.changes bars) := by
  unfold TechnicalAnalysis.changesIx TechnicalAnalysis.changes
  apply seqOpt_map_some
  intro i hi
  rw [List.mem_range'_1] at hi
  have h2 : i < bars.length := by omega
  have h1 : i - 1 < bars.length := by omega
  rw [List.get?_eq_get h2, List.get?_eq_get h1,
    List.getD_eq_get bars dBar h2, List.getD_eq_get bars dBar h1]
  rfl

/-- The checked RSI never panics and agrees with the translation, for
every series length and period. -/
theorem calculate_rsi_ix_eq (bars : List Bar) (period : ℕ) :
    TechnicalAnalysis.calculate_rsi_ix bars period =
      some (TechnicalAnalysis.calculate_rsi bars period) := by
  unfold TechnicalAnalysis.calculate_rsi_ix TechnicalAnalysis.calculate_rsi
  by_cases h : bars.length < period + 1
  · rw [if_pos h, if_pos h]
  · rw [if_neg h, if_neg h, changesIx_eq]
    simp only [Option.bind_eq_bind, Option.some_bind]
    split <;> rfl

/-- C10: `generate_signal` and its helpers are total: every slice access
is in bounds (`bars[len-1]` and `bars[len-10]` are read only behind the
length guards, and the RSI helper returns early rather than indexing a
short series), so the index-checked embedding never fails and agrees with
the direct one on every input. -/
theorem C10_no_out_of_bounds (bars : List Bar) (sentiment noise : ℚ)
    (period : ℕ) :
    TechnicalAnalysis.calculate_rsi_ix bars period =
      some (TechnicalAnalysis.calculate_rsi bars period) ∧
    TechnicalAnalysis.generate_signal_ix bars sentiment noise =
      some (TechnicalAnalysis.generate_signal bars sentiment noise) := by
  refine ⟨calculate_rsi_ix_eq bars period, ?_⟩
  unfold TechnicalAnalysis.generate_signal_ix TechnicalAnalysis.generate_signal
  by_cases h : bars.length < 20
  · rw [if_pos h, if_pos h]
  · have h10 : 10 ≤ bars.length := by omega
    have h1 : bars.length - 1 < bars.length := by omega
    have h2 : bars.length - 10 < bars.length := by omega
    rw [if_neg h, if_neg h, calculate_rsi_ix_eq]
    simp only [Option.bind_eq_bind, Option.some_bind, h10, if_true,
      List.get?_eq_get h1,
      List.get?_eq_get h2, List.getD_eq_get bars dBar h1,
      List.getD_eq_get bars dBar h2]
    rfl

/-- `iter().any(..)` is true whenever `iter().find(..)` succeeds. -/
theorem any_of_find? {positions : List PositionR} {symbol : String}
    {pos : PositionR}
    (h : positions.find? (fun p => p.symbol == symbol) = some pos) :
    positions.any (fun p => p.symbol == symbol) = true :=
  have hmem : pos ∈ positions := List.mem_of_find?_eq_some h
  have hp := @List.find?_some PositionR (fun p => p.symbol == symbol) pos positions h
  List.any_eq_true.mpr ⟨pos, hmem, hp⟩

/-- Stock profit-take with a successful close: immediate return, one
close call, one Activity entry, no `TradeRecord`. -/
theorem stock_pt_success (env : VenueEnv) (symbol : String)
    (price signal : ℚ) (positions : List PositionR) (pos : PositionR)
    (hfind : positions.find? (fun p => p.symbol == symbol) = some pos)
    (hprofit : 15 ≤ profitPercent pos.avg_entry_price price)
    (hok : env.profitCloseOk = true) :
    process_stock_decide env symbol price signal positions =
      (.ok "profit_taking", [.closeCall, .tradeLogSuccess]) := by
  simp only [process_stock_decide, any_of_find? hfind, hfind, hprofit, hok,
    if_true, ite_true]

/-- Crypto profit-take with a successful close: immediate return, one
close call, one Activity entry, no `TradeRecord`. -/
theorem crypto_pt_success (env : VenueEnv) (symbol : String)
    (price signal : ℚ) (positions : List PositionR) (pos : PositionR)
    (hfind : positions.find? (fun p => p.symbol == symbol) = some pos)
    (hprofit : 20 ≤ profitPercent pos.avg_entry_price price)
    (hok : env.profitCloseOk = true) :
    process_crypto_decide env symbol price signal positions =
      (.ok "profit_taking", [.closeCall, .tradeLogSuccess]) := by
  simp only [process_crypto_decide, any_of_find? hfind, hfind, hprofit, hok,
    if_true, ite_true]

/-- Stock buy branch with a successful order: order call, Activity entry,
and a BUY `TradeRecord`, with the floored quantity. -/
theorem stock_buy_success (env : VenueEnv) (symbol : String)
    (price signal : ℚ) (positions : List PositionR)
    (hnopos : positions.any (fun p => p.symbol == symbol) = false)
    (hsig : 0.15 < signal) (hacct : env.accountOk = true)
    (hqty : 0 < ⌊min (env.buying_power * 0.05) 5000 / price⌋)
    (hord : env.orderOk = true) :
    process_stock_decide env symbol price signal positions =
      (.ok "buy",
        [.orderCall ⌊min (env.buying_power * 0.05) 5000 / price⌋,
         .tradeLogSuccess,
         .tradeRec "BUY" (⌊min (env.buying_power * 0.05) 5000 / price⌋ : ℚ)
           price 0]) := by
  simp only [process_stock_decide, hnopos, hsig, hacct, hqty, hord, if_true,
    ite_true, Bool.false_eq_true, Bool.true_eq_false, if_false, and_true, true_and, and_self,
    List.nil_append]

/-- Stock sell branch with a successful close: close call, Activity entry,
and a SELL `TradeRecord`. -/
theorem stock_sell_success (env : VenueEnv) (symbol : String)
    (price signal : ℚ) (positions : List PositionR) (pos : PositionR)
    (hfind : positions.find? (fun p => p.symbol == symbol) = some pos)
    (hprofit : profitPercent pos.avg_entry_price price < 15)
    (hsig : signal < -0.15) (hok : env.sellCloseOk = true) :
    process_stock_decide env symbol price signal positions =
      (.ok "sell",
        [.closeCall, .tradeLogSuccess,
         .tradeRec "SELL" pos.qty price pos.unrealized_pl]) := by
  have hsig2 : ¬ (0.15 < signal) := by
    intro hc
    have : (0.15 : ℚ) < -0.15 := lt_trans hc hsig
    norm_num at this
  have hpro : ¬ (15 ≤ profitPercent pos.avg_entry_price price) :=
    not_le.mpr hprofit
  simp only [process_stock_decide, any_of_find? hfind, hfind, hpro, hsig,
    hsig2, hok, if_true, ite_true, if_false, ite_false, and_true, true_and,
    and_false, false_and, and_self, List.nil_append]

/-- Crypto buy branch with a successful order: crypto order call, Activity
entry, and a BUY `TradeRecord` with fractional quantity. -/
theorem crypto_buy_success (env : VenueEnv) (symbol : String)
    (price signal : ℚ) (positions : List PositionR)
    (hnopos : positions.any (fun p => p.symbol == symbol) = false)
    (hsig : 0.20 < signal) (hacct : env.accountOk = true)
    (hqty : 0 < min (env.buying_power * 0.02) 2000 / price)
    (hord : env.orderOk = true) :
    process_crypto_decide env symbol price signal positions =
      (.ok "buy",
        [.cryptoOrderCall (min (env.buying_power * 0.02) 2000 / price),
         .tradeLogSuccess,
         .tradeRec "BUY" (min (env.buying_power * 0.02) 2000 / price)
           price 0]) := by
  simp only [process_crypto_decide, hnopos, hsig, hacct, hqty, hord, if_true,
    ite_true, Bool.false_eq_true, Bool.true_eq_false, if_false, and_true, true_and, and_self,
    List.nil_append]

/-- Crypto sell branch with a successful close: close call, Activity
entry, and a SELL `TradeRecord`. -/
theorem crypto_sell_success (env : VenueEnv) (symbol : String)
    (price signal : ℚ) (positions : List PositionR) (pos : PositionR)
    (hfind : positions.find? (fun p => p.symbol == symbol) = some pos)
    (hprofit : profitPercent pos.avg_entry_price price < 20)
    (hsig : signal < -0.20) (hok : env.sellCloseOk = true) :
    process_crypto_decide env symbol price signal positions =
      (.ok "sell",
        [.closeCall, .tradeLogSuccess,
         .tradeRec "SELL" pos.qty price pos.unrealized_pl]) := by
  have hsig2 : ¬ (0.20 < signal) := by
    intro hc
    have : (0.20 : ℚ) < -0.20 := lt_trans hc hsig
    norm_num at this
  have hpro : ¬ (20 ≤ profitPercent pos.avg_entry_price price) :=
    not_le.mpr hprofit
  simp only [process_crypto_decide, any_of_find? hfind, hfind, hpro, hsig,
    hsig2, hok, if_true, ite_true, if_false, ite_false, and_true, true_and,
    and_false, false_and, and_self, List.nil_append]

/-- Stock buy branch with non-positive computed quantity: no venue call,
no ledger entries, neutral result. -/
theorem stock_buy_noqty (env : VenueEnv) (symbol : String)
    (price signal : ℚ) (positions : List PositionR)
    (hnopos : positions.any (fun p => p.symbol == symbol) = false)
    (hsig : 0.15 < signal) (hacct : env.accountOk = true)
    (hqty : ⌊min (env.buying_power * 0.05) 5000 / price⌋ ≤ 0) :
    process_stock_decide env symbol price signal positions =
      (.ok "neutral", []) := by
  have hq : ¬ (0 < ⌊min (env.buying_power * 0.05) 5000 / price⌋) :=
    not_lt.mpr hqty
  simp only [process_stock_decide, hnopos, hsig, hacct, hq, if_true,
    ite_true, Bool.false_eq_true, Bool.true_eq_false, if_false, ite_false, and_true, true_and,
    and_self]

/-- Stock buy branch with a rejected order: the order call and an
Activity error entry are emitted and the function returns neutral. -/
theorem stock_buy_fail (env : VenueEnv) (symbol : String)
    (price signal : ℚ) (positions : List PositionR)
    (hnopos : positions.any (fun p => p.symbol == symbol) = false)
    (hsig : 0.15 < signal) (hacct : env.accountOk = true)
    (hqty : 0 < ⌊min (env.buying_power * 0.05) 5000 / price⌋)
    (hord : env.orderOk = false) :
    process_stock_decide env symbol price signal positions =
      (.ok "neutral",
        [.orderCall ⌊min (env.buying_power * 0.05) 5000 / price⌋,
         .tradeLogError]) := by
  simp only [process_stock_decide, hnopos, hsig, hacct, hqty, hord, if_true,
    ite_true, Bool.false_eq_true, Bool.true_eq_false, if_false, ite_false,
    and_true, true_and, and_self, List.nil_append]

/-- C1 counterexample: a held position at 20 % profit (threshold 15 %)
whose profit-take close call is rejected by the venue, with a strong sell
signal: the decision step does not terminate at the profit-take, it falls
through to the signal-driven sell branch, which emits a second close call
and returns a sell. -/
theorem C1_counterexample :
    process_stock_decide ⟨false, true, true, true, 10000⟩ "AAPL" 120 (-1/2)
        [⟨"AAPL", 10, 100, 120, 200⟩] =
      (.ok "sell",
        [.closeCall, .closeCall, .tradeLogSuccess,
         .tradeRec "SELL" 10 120 200]) := by
  norm_num [process_stock_decide, profitPercent]

/-- C1 (amended): when the profit-take close call succeeds, the decision
step returns immediately with only the profit-take close and its Activity
entry — the signal-driven sell branch is never reached, whatever the
signal; for stocks at the 15 % threshold and crypto at 20 %. -/
theorem C1_profit_take_priority :
    (∀ (env : VenueEnv) (symbol : String) (price signal : ℚ)
        (positions : List PositionR) (pos : PositionR),
      positions.find? (fun p => p.symbol == symbol) = some pos →
      15 ≤ profitPercent pos.avg_entry_price price →
      env.profitCloseOk = true →
      process_stock_decide env symbol price signal positions =
        (.ok "profit_taking", [.closeCall, .tradeLogSuccess])) ∧
    (∀ (env : VenueEnv) (symbol : String) (price signal : ℚ)
        (positions : List PositionR) (pos : PositionR),
      positions.find? (fun p => p.symbol == symbol) = some pos →
      20 ≤ profitPercent pos.avg_entry_price price →
      env.profitCloseOk = true →
      process_crypto_decide env symbol price signal positions =
        (.ok "profit_taking", [.closeCall, .tradeLogSuccess])) :=
  ⟨fun env s p sg ps pos hf hpr hok =>
      stock_pt_success env s p sg ps pos hf hpr hok,
   fun env s p sg ps pos hf hpr hok =>
      crypto_pt_success env s p sg ps pos hf hpr hok⟩

/-- Witness for C1 with a strong simultaneous sell signal on both venues. -/
theorem C1_profit_take_priority_witness :
    process_stock_decide ⟨true, true, true, true, 10000⟩ "AAPL" 120 (-1/2)
        [⟨"AAPL", 10, 100, 120, 200⟩] =
      (.ok "profit_taking", [.closeCall, .tradeLogSuccess]) ∧
    process_crypto_decide ⟨true, true, true, true, 10000⟩ "BTC/USD" 130
        (-1/2) [⟨"BTC/USD", 1, 100, 130, 30⟩] =
      (.ok "profit_taking", [.closeCall, .tradeLogSuccess]) :=
  ⟨C1_profit_take_priority.1 ⟨true, true, true, true, 10000⟩ "AAPL" 120
      (-1/2) [⟨"AAPL", 10, 100, 120, 200⟩] ⟨"AAPL", 10, 100, 120, 200⟩
      (by decide) (by norm_num [profitPercent]) rfl,
   C1_profit_take_priority.2 ⟨true, true, true, true, 10000⟩ "BTC/USD" 130
      (-1/2) [⟨"BTC/USD", 1, 100, 130, 30⟩] ⟨"BTC/USD", 1, 100, 130, 30⟩
      (by decide) (by norm_num [profitPercent]) rfl⟩

/-- C2 counterexample: successful profit-take closes (stock at 15 %,
crypto at 20 %) emit the close call and an Activity-Ledger entry but no
`tradeRec` event — no `TradeRecord` is appended to the trade ledger on
these paths, contrary to the claim. -/
theorem C2_counterexample :
    process_stock_decide ⟨true, true, true, true, 10000⟩ "MSFT" 230 0
        [⟨"MSFT", 5, 200, 230, 150⟩] =
      (.ok "profit_taking", [.closeCall, .tradeLogSuccess]) ∧
    process_crypto_decide ⟨true, true, true, true, 10000⟩ "BTC/USD" 240 0
        [⟨"BTC/USD", 2, 200, 240, 80⟩] =
      (.ok "profit_taking", [.closeCall, .tradeLogSuccess]) :=
  ⟨by norm_num [process_stock_decide, profitPercent],
   by norm_num [process_crypto_decide, profitPercent]⟩

/-- C2 (amended): successful BUY orders and signal-driven SELL closes
append both a `TradeRecord` and an Activity-Ledger entry, for stocks and
crypto alike; successful profit-take closes append an Activity-Ledger
entry but no `TradeRecord`. -/
theorem C2_ledger_appends :
    (∀ (env : VenueEnv) (symbol : String) (price signal : ℚ)
        (positions : List PositionR),
      positions.any (fun p => p.symbol == symbol) = false →
      0.15 < signal → env.accountOk = true →
      0 < ⌊min (env.buying_power * 0.05) 5000 / price⌋ →
      env.orderOk = true →
      process_stock_decide env symbol price signal positions =
        (.ok "buy",
          [.orderCall ⌊min (env.buying_power * 0.05) 5000 / price⌋,
           .tradeLogSuccess,
           .tradeRec "BUY" (⌊min (env.buying_power * 0.05) 5000 / price⌋ : ℚ)
             price 0])) ∧
    (∀ (env : VenueEnv) (symbol : String) (price signal : ℚ)
        (positions : List PositionR) (pos : PositionR),
      positions.find? (fun p => p.symbol == symbol) = some pos →
      profitPercent pos.avg_entry_price price < 15 →
      signal < -0.15 → env.sellCloseOk = true →
      process_stock_decide env symbol price signal positions =
        (.ok "sell",
          [.closeCall, .tradeLogSuccess,
           .tradeRec "SELL" pos.qty price pos.unrealized_pl])) ∧
    (∀ (env : VenueEnv) (symbol : String) (price signal : ℚ)
        (positions : List PositionR) (pos : PositionR),
      positions.find? (fun p => p.symbol == symbol) = some pos →
      15 ≤ profitPercent pos.avg_entry_price price →
      env.profitCloseOk = true →
      process_stock_decide env symbol price signal positions =
        (.ok "profit_taking", [.closeCall, .tradeLogSuccess])) ∧
    (∀ (env : VenueEnv) (symbol : String) (price signal : ℚ)
        (positions : List PositionR),
      positions.any (fun p => p.symbol == symbol) = false →
      0.20 < signal → env.accountOk = true →
      0 < min (env.buying_power * 0.02) 2000 / price →
      env.orderOk = true →
      process_crypto_decide env symbol price signal positions =
        (.ok "buy",
          [.cryptoOrderCall (min (env.buying_power * 0.02) 2000 / price),
           .tradeLogSuccess,
           .tradeRec "BUY" (min (env.buying_power * 0.02) 2000 / price)
             price 0])) ∧
    (∀ (env : VenueEnv) (symbol : String) (price signal : ℚ)
        (positions : List PositionR) (pos : PositionR),
      positions.find? (fun p => p.symbol == symbol) = some pos →
      profitPercent pos.avg_entry_price price < 20 →
      signal < -0.20 → env.sellCloseOk = true →
      process_crypto_decide env symbol price signal positions =
        (.ok "sell",
          [.closeCall, .tradeLogSuccess,
           .tradeRec "SELL" pos.qty price pos.unrealized_pl])) ∧
    (∀ (env : VenueEnv) (symbol : String) (price signal : ℚ)
        (positions : List PositionR) (pos : PositionR),
      positions.find? (fun p => p.symbol == symbol) = some pos →
      20 ≤ profitPercent pos.avg_entry_price price →
      env.profitCloseOk = true →
      process_crypto_decide env symbol price signal positions =
        (.ok "profit_taking", [.closeCall, .tradeLogSuccess])) :=
  ⟨fun env s p sg ps h1 h2 h3 h4 h5 =>
      stock_buy_success env s p sg ps h1 h2 h3 h4 h5,
   fun env s p sg ps pos h1 h2 h3 h4 =>
      stock_sell_success env s p sg ps pos h1 h2 h3 h4,
   fun env s p sg ps pos h1 h2 h3 =>
      stock_pt_success env s p sg ps pos h1 h2 h3,
   fun env s p sg ps h1 h2 h3 h4 h5 =>
      crypto_buy_success env s p sg ps h1 h2 h3 h4 h5,
   fun env s p sg ps pos h1 h2 h3 h4 =>
      crypto_sell_success env s p sg ps pos h1 h2 h3 h4,
   fun env s p sg ps pos h1 h2 h3 =>
      crypto_pt_success env s p sg ps pos h1 h2 h3⟩

/-- Witness for C2 on all six success paths at concrete inputs. -/
theorem C2_ledger_appends_witness :
    process_stock_decide ⟨true, true, true, true, 10000⟩ "AAPL" 150 1 [] =
      (.ok "buy", [.orderCall 3, .tradeLogSuccess,
        .tradeRec "BUY" 3 150 0]) ∧
    process_stock_decide ⟨true, true, true, true, 10000⟩ "IBM" 90 (-1)
        [⟨"IBM", 4, 100, 90, -40⟩] =
      (.ok "sell", [.closeCall, .tradeLogSuccess,
        .tradeRec "SELL" 4 90 (-40)]) ∧
    process_stock_decide ⟨true, true, true, true, 10000⟩ "NVDA" 230 0
        [⟨"NVDA", 5, 200, 230, 150⟩] =
      (.ok "profit_taking", [.closeCall, .tradeLogSuccess]) ∧
    process_crypto_decide ⟨true, true, true, true, 10000⟩ "ETH/USD" 100 1
        [] =
      (.ok "buy", [.cryptoOrderCall 2, .tradeLogSuccess,
        .tradeRec "BUY" 2 100 0]) ∧
    process_crypto_decide ⟨true, true, true, true, 10000⟩ "SOL/USD" 90 (-1)
        [⟨"SOL/USD", 3, 100, 90, -30⟩] =
      (.ok "sell", [.closeCall, .tradeLogSuccess,
        .tradeRec "SELL" 3 90 (-30)]) ∧
    process_crypto_decide ⟨true, true, true, true, 10000⟩ "LTC/USD" 240 0
        [⟨"LTC/USD", 2, 200, 240, 80⟩] =
      (.ok "profit_taking", [.closeCall, .tradeLogSuccess]) := by
  refine ⟨?_, ?_, ?_, ?_, ?_, ?_⟩
  · have h := C2_ledger_appends.1 ⟨true, true, true, true, 10000⟩ "AAPL"
      150 1 [] rfl (by norm_num) rfl (by norm_num) rfl
    dsimp only at h
    rw [show (⌊min ((10000:ℚ) * 0.05) 5000 / 150⌋ : ℤ) = 3 from by
      norm_num] at h
    exact_mod_cast h
  · exact C2_ledger_appends.2.1 ⟨true, true, true, true, 10000⟩ "IBM" 90
      (-1) [⟨"IBM", 4, 100, 90, -40⟩] ⟨"IBM", 4, 100, 90, -40⟩ (by decide)
      (by norm_num [profitPercent]) (by norm_num) rfl
  · exact C2_ledger_appends.2.2.1 ⟨true, true, true, true, 10000⟩ "NVDA"
      230 0 [⟨"NVDA", 5, 200, 230, 150⟩] ⟨"NVDA", 5, 200, 230, 150⟩
      (by decide) (by norm_num [profitPercent]) rfl
  · have h := C2_ledger_appends.2.2.2.1 ⟨true, true, true, true, 10000⟩
      "ETH/USD" 100 1 [] rfl (by norm_num) rfl (by norm_num) rfl
    dsimp only at h
    rw [show min ((10000:ℚ) * 0.02) 2000 / 100 = 2 from by norm_num] at h
    exact h
  · exact C2_ledger_appends.2.2.2.2.1 ⟨true, true, true, true, 10000⟩
      "SOL/USD" 90 (-1) [⟨"SOL/USD", 3, 100, 90, -30⟩]
      ⟨"SOL/USD", 3, 100, 90, -30⟩ (by decide)
      (by norm_num [profitPercent]) (by norm_num) rfl
  · exact C2_ledger_appends.2.2.2.2.2 ⟨true, true, true, true, 10000⟩
      "LTC/USD" 240 0 [⟨"LTC/USD", 2, 200, 240, 80⟩]
      ⟨"LTC/USD", 2, 200, 240, 80⟩ (by decide)
      (by norm_num [profitPercent]) rfl

/-- C4: when the equities buy branch fires (no position held, signal above
0.15, account fetched), the quantity of the submitted order equals
`floor(min(buying_power * 0.05, 5000) / current_price)` whole shares —
the order call carries exactly that quantity whether or not the venue
accepts it — and when that computed quantity is ≤ 0 no order is
submitted and the instrument ends as a logged no-op (neutral result, no
venue call). -/
theorem C4_buy_sizing :
    (∀ (env : VenueEnv) (symbol : String) (price signal : ℚ)
        (positions : List PositionR),
      positions.any (fun p => p.symbol == symbol) = false →
      0.15 < signal → env.accountOk = true →
      0 < ⌊min (env.buying_power * 0.05) 5000 / price⌋ →
      (process_stock_decide env symbol price signal positions).2.head? =
        some (.orderCall ⌊min (env.buying_power * 0.05) 5000 / price⌋)) ∧
    (∀ (env : VenueEnv) (symbol : String) (price signal : ℚ)
        (positions : List PositionR),
      positions.any (fun p => p.symbol == symbol) = false →
      0.15 < signal → env.accountOk = true →
      ⌊min (env.buying_power * 0.05) 5000 / price⌋ ≤ 0 →
      process_stock_decide env symbol price signal positions =
        (.ok "neutral", [])) := by
  constructor
  · intro env symbol price signal positions h1 h2 h3 h4
    rcases hord : env.orderOk with _ | _
    · rw [stock_buy_fail env symbol price signal positions h1 h2 h3 h4 hord]
      rfl
    · rw [stock_buy_success env symbol price signal positions h1 h2 h3 h4
        hord]
      rfl
  · intro env symbol price signal positions h1 h2 h3 h4
    exact stock_buy_noqty env symbol price signal positions h1 h2 h3 h4

/-- Witness for C4: buying power 10000, price 150 gives quantity
`floor(min(500, 5000) / 150) = 3`; buying power 5 gives quantity 0 and a
neutral no-op. -/
theorem C4_buy_sizing_witness :
    (process_stock_decide ⟨true, true, true, true, 10000⟩ "AAPL" 150 1
        []).2.head? = some (.orderCall 3) ∧
    process_stock_decide ⟨true, true, true, true, 5⟩ "AAPL" 150 1 [] =
      (.ok "neutral", []) := by
  constructor
  · have h := C4_buy_sizing.1 ⟨true, true, true, true, 10000⟩ "AAPL" 150 1
      [] rfl (by norm_num) rfl (by norm_num)
    dsimp only at h
    rw [show (⌊min ((10000:ℚ) * 0.05) 5000 / 150⌋ : ℤ) = 3 from by
      norm_num] at h
    exact h
  · exact C4_buy_sizing.2 ⟨true, true, true, true, 5⟩ "AAPL" 150 1 [] rfl
      (by norm_num) rfl (by norm_num)

/-- A non-empty store always has a minimal timestamp. -/
theorem minTs?_eq_some (e : ActivityRec) (st : List ActivityRec) :
    ∃ m, ActivityLogger.minTs? (e :: st) = some m := by
  cases h : ActivityLogger.minTs? st with
  | none => exact ⟨e.ts, by simp [ActivityLogger.minTs?, h]⟩
  | some m => exact ⟨min e.ts m, by simp [ActivityLogger.minTs?, h]⟩

/-- The minimal timestamp is attained by some stored entry. -/
theorem minTs?_mem (st : List ActivityRec) (m : ℕ)
    (h : ActivityLogger.minTs? st = some m) : ∃ a ∈ st, a.ts = m := by
  induction st generalizing m with
  | nil => simp [ActivityLogger.minTs?] at h
  | cons e rest ih =>
    rw [ActivityLogger.minTs?] at h
    cases hr : ActivityLogger.minTs? rest with
    | none =>
      rw [hr] at h
      have : some e.ts = some m := h
      exact ⟨e, List.mem_cons_self e rest, Option.some.inj this⟩
    | some mr =>
      rw [hr] at h
      have hm : m = min e.ts mr := by simpa using h.symm
      rcases min_cases e.ts mr with ⟨hmin, _⟩ | ⟨hmin, _⟩
      · exact ⟨e, List.mem_cons_self e rest, by rw [hm, hmin]⟩
      · obtain ⟨a, ha, hats⟩ := ih mr hr
        exact ⟨a, List.mem_cons_of_mem e ha, by rw [hm, hmin, hats]⟩

/-- Removing the entry found for an attained timestamp shrinks the store
by exactly one. -/
theorem removeFirstTs_length (m : ℕ) (st : List ActivityRec)
    (h : ∃ a ∈ st, a.ts = m) :
    (ActivityLogger.removeFirstTs m st).length + 1 = st.length := by
  induction st with
  | nil => simp at h
  | cons e rest ih =>
    rw [ActivityLogger.removeFirstTs]
    by_cases he : e.ts = m
    · rw [if_pos he]
      simp
    · rw [if_neg he]
      obtain ⟨a, ha, hats⟩ := h
      rcases List.mem_cons.mp ha with rfl | ha2
      · exact absurd hats he
      · simp only [List.length_cons]
        rw [← ih ⟨a, ha2, hats⟩]

set_option maxRecDepth 10000 in
/-- C5: the Activity Ledger stays within its 100-entry cap after every
insert from any within-cap state, and in the concrete overflow scenario
(105 entries with increasing timestamps into an empty ledger) exactly 100
entries remain, namely those with timestamps 6…105 — the 5
oldest-by-timestamp entries have been evicted. -/
theorem C5_activity_ledger_capped :
    (∀ (st : List ActivityRec) (e : ActivityRec),
      st.length ≤ 100 → (ActivityLogger.log st e).length ≤ 100) ∧
    (activityScenario.length = 100 ∧
      activityScenario.map (fun e => e.ts) = (List.range' 6 100).reverse) := by
  refine ⟨?_, by decide, by decide⟩
  intro st e h
  simp only [ActivityLogger.log]
  by_cases hlen : ActivityLogger.max_logs < (e :: st).length
  · rw [if_pos hlen]
    obtain ⟨m, hm⟩ := minTs?_eq_some e st
    rw [hm]
    obtain ⟨a, ha, hats⟩ := minTs?_mem (e :: st) m hm
    have hrem := removeFirstTs_length m (e :: st) ⟨a, ha, hats⟩
    show (ActivityLogger.removeFirstTs m (e :: st)).length ≤ 100
    simp only [List.length_cons] at hrem
    omega
  · rw [if_neg hlen]
    unfold ActivityLogger.max_logs at hlen
    simp only [List.length_cons] at hlen ⊢
    omega

/-- Witness for C5 at the empty ledger. -/
theorem C5_activity_ledger_capped_witness :
    (ActivityLogger.log [] ⟨1, 1⟩).length ≤ 100 :=
  C5_activity_ledger_capped.1 [] ⟨1, 1⟩ (by decide)

set_option maxRecDepth 10000 in
/-- C6: the portfolio history holds at most 100 snapshots after every
append (from any within-cap state), eviction is first-in-first-out, and
after 105 insertions into an empty history the length is 100 and the
earliest surviving snapshot is insertion number 6. -/
theorem C6_portfolio_ring :
    (∀ (h : List PortfolioSnapshot) (s : PortfolioSnapshot),
      h.length ≤ 100 → (pushSnapshot h s).length ≤ 100) ∧
    (portfolioScenario.length = 100 ∧
      portfolioScenario.head?.map (fun s => s.timestamp) = some 6 ∧
      portfolioScenario.map (fun s => s.timestamp) = List.range' 6 100) := by
  refine ⟨?_, by decide, by decide, by decide⟩
  intro h s hlen
  simp only [pushSnapshot]
  by_cases hc : 100 < (h ++ [s]).length
  · rw [if_pos hc]
    simp only [List.length_drop, List.length_append, List.length_cons,
      List.length_nil]
    omega
  · rw [if_neg hc]
    omega

/-- Witness for C6 at the empty history. -/
theorem C6_portfolio_ring_witness :
    (pushSnapshot [] ⟨1, 0, 0, 0⟩).length ≤ 100 :=
  C6_portfolio_ring.1 [] ⟨1, 0, 0, 0⟩ (by decide)

/-- C9 counterexample: on market data where an executed-trade price (100)
is available, the equities fetch returns it but the crypto fetch returns
the ask quote (10) — the crypto gateway never consults a trade price; and
when the crypto quote request fails over HTTP, the crypto fetch errors
even though a bar close (8) is available — so the two gateways do not
implement the claimed common contract. -/
theorem C9_counterexample :
    get_latest_quote ⟨true, some 100, true, some 10, some 9, some 8⟩ =
      some 100 ∧
    get_latest_crypto_price ⟨true, some 100, true, some 10, some 9, some 8⟩ =
      some 10 ∧
    get_latest_crypto_price
        ⟨true, some 100, false, some 10, some 9, some 8⟩ = none := by
  decide

/-- C9 (amended): the equities fetch prefers the executed-trade price,
falls back to the latest bar close when the request fails or yields no
positive price, and errors only when no bar is available either; the
crypto fetch instead prefers the ask quote, then the bid quote, then the
latest bar close, errors immediately when the quote request fails (no bar
fallback), and otherwise errors only when no path yields data. -/
theorem C9_price_fetch_contract :
    (∀ (d : MarketData) (p : ℚ), d.tradeHttpOk = true → d.trade = some p →
      0 < p → get_latest_quote d = some p) ∧
    (∀ d : MarketData, d.tradeHttpOk = false →
      get_latest_quote d = d.barClose) ∧
    (∀ (d : MarketData) (p : ℚ), d.tradeHttpOk = true → d.trade = some p →
      p ≤ 0 → get_latest_quote d = d.barClose) ∧
    (∀ d : MarketData, d.tradeHttpOk = true → d.trade = none →
      get_latest_quote d = d.barClose) ∧
    (∀ d : MarketData, get_latest_quote d = none → d.barClose = none) ∧
    (∀ (d : MarketData) (a : ℚ), d.quoteHttpOk = true → d.ask = some a →
      0 < a → get_latest_crypto_price d = some a) ∧
    (∀ (d : MarketData) (b : ℚ), d.quoteHttpOk = true → d.bid = some b →
      0 < b → (d.ask = none ∨ ∃ a, d.ask = some a ∧ a ≤ 0) →
      get_latest_crypto_price d = some b) ∧
    (∀ d : MarketData, d.quoteHttpOk = false →
      get_latest_crypto_price d = none) ∧
    (∀ d : MarketData, d.quoteHttpOk = true →
      get_latest_crypto_price d = none → d.barClose = none) := by
  refine ⟨?_, ?_, ?_, ?_, ?_, ?_, ?_, ?_, ?_⟩
  · intro d p h1 h2 h3
    simp only [get_latest_quote, h1, h2, h3, Bool.true_eq_false, if_false,
      ite_false, if_true, ite_true]
  · intro d h1
    simp only [get_latest_quote, h1, ite_true]
  · intro d p h1 h2 h3
    simp only [get_latest_quote, h1, h2, not_lt.mpr h3, Bool.true_eq_false,
      if_false, ite_false]
  · intro d h1 h2
    simp only [get_latest_quote, h1, h2, Bool.true_eq_false, if_false,
      ite_false]
  · intro d h
    unfold get_latest_quote at h
    by_cases h1 : d.tradeHttpOk = false
    · rwa [if_pos h1] at h
    · rw [if_neg h1] at h
      cases ht : d.trade with
      | none => simp only [ht] at h; exact h
      | some p =>
        simp only [ht] at h
        by_cases hp : 0 < p
        · rw [if_pos hp] at h
          exact absurd h (by simp)
        · rwa [if_neg hp] at h
  · intro d a h1 h2 h3
    simp only [get_latest_crypto_price, h1, h2, h3, Bool.true_eq_false,
      if_false, ite_false, if_true, ite_true]
  · intro d b h1 h2 h3 h4
    rcases h4 with ha | ⟨a, ha, hle⟩
    · simp only [get_latest_crypto_price, h1, h2, h3, ha,
        Bool.true_eq_false, if_false, ite_false, if_true, ite_true]
    · simp only [get_latest_crypto_price, h1, h2, h3, ha, not_lt.mpr hle,
        Bool.true_eq_false, if_false, ite_false, if_true, ite_true]
  · intro d h1
    simp only [get_latest_crypto_price, h1, ite_true]
  · intro d h1 h
    unfold get_latest_crypto_price at h
    rw [if_neg (by simp [h1])] at h
    cases ha : d.ask with
    | none =>
      cases hb : d.bid with
      | none => simp only [ha, hb] at h; exact h
      | some b =>
        simp only [ha, hb] at h
        by_cases hbp : 0 < b
        · rw [if_pos hbp] at h
          exact absurd h (by simp)
        · rwa [if_neg hbp] at h
    | some a =>
      by_cases hap : 0 < a
      · simp only [ha] at h
        rw [if_pos hap] at h
        exact absurd h (by simp)
      · cases hb : d.bid with
        | none =>
          simp only [ha, hb] at h
          rwa [if_neg hap] at h
        | some b =>
          simp only [ha, hb] at h
          rw [if_neg hap] at h
          by_cases hbp : 0 < b
          · rw [if_pos hbp] at h
            exact absurd h (by simp)
          · rwa [if_neg hbp] at h

/-- Witness for C9: each contract clause applied at concrete market data. -/
theorem C9_price_fetch_contract_witness :
    get_latest_quote ⟨true, some 55, true, none, none, some 7⟩ = some 55 ∧
    get_latest_quote ⟨false, some 55, true, none, none, some 7⟩ = some 7 ∧
    get_latest_quote ⟨true, some 0, true, none, none, some 7⟩ = some 7 ∧
    get_latest_quote ⟨true, none, true, none, none, some 7⟩ = some 7 ∧
    (⟨true, none, true, none, none, none⟩ : MarketData).barClose = none ∧
    get_latest_crypto_price ⟨true, none, true, some 12, some 11, some 7⟩ =
      some 12 ∧
    get_latest_crypto_price ⟨true, none, true, none, some 11, some 7⟩ =
      some 11 ∧
    get_latest_crypto_price ⟨true, none, false, some 12, some 11, some 7⟩ =
      none ∧
    (⟨true, none, true, none, none, none⟩ : MarketData).barClose = none :=
  ⟨C9_price_fetch_contract.1 ⟨true, some 55, true, none, none, some 7⟩ 55
      rfl rfl (by norm_num),
   C9_price_fetch_contract.2.1 ⟨false, some 55, true, none, none, some 7⟩
      rfl,
   C9_price_fetch_contract.2.2.1 ⟨true, some 0, true, none, none, some 7⟩
      0 rfl rfl le_rfl,
   C9_price_fetch_contract.2.2.2.1 ⟨true, none, true, none, none, some 7⟩
      rfl rfl,
   C9_price_fetch_contract.2.2.2.2.1
      ⟨true, none, true, none, none, none⟩ rfl,
   C9_price_fetch_contract.2.2.2.2.2.1
      ⟨true, none, true, some 12, some 11, some 7⟩ 12 rfl rfl (by norm_num),
   C9_price_fetch_contract.2.2.2.2.2.2.1
      ⟨true, none, true, none, some 11, some 7⟩ 11 rfl rfl (by norm_num)
      (Or.inl rfl),
   C9_price_fetch_contract.2.2.2.2.2.2.2.1
      ⟨true, none, false, some 12, some 11, some 7⟩ rfl,
   C9_price_fetch_contract.2.2.2.2.2.2.2.2
      ⟨true, none, true, none, none, none⟩ rfl rfl⟩
